import Mathlib

/-!
# L298N motor driver: embedding and verified properties

Shallow embedding of `src/src/l298n.cpp` / `src/src/l298n.hpp`.

* The object's six private fields become the fields of the structure `L298N`.
* Every call into the Arduino core (`pinMode`, `digitalWrite`, `ledcSetup`,
  `ledcAttachPin`, `ledcWrite`, `analogWrite`) becomes one `HwCall` value; a
  member function returns the new object state together with the list of
  hardware calls it issued, in program order.
* The compile-time switch `#ifdef ESP32` becomes the parameter `Backend`.
* `uint8_t` values are natural numbers; a `uint8_t` parameter is reduced
  modulo `2^8` on entry, which is the conversion C++ applies at the call.
-/

/-- Logic level passed to `digitalWrite`. -/
inductive Level where
  | LOW
  | HIGH
deriving DecidableEq, Repr

/-- Pin mode passed to `pinMode`; the driver only ever uses `OUTPUT`. -/
inductive PinModeArg where
  | INPUT
  | OUTPUT
deriving DecidableEq, Repr

/-- One call into the Arduino core, with its actual arguments. -/
inductive HwCall where
  | pinMode (pin : Nat) (mode : PinModeArg)
  | digitalWrite (pin : Nat) (level : Level)
  | ledcSetup (channel : Nat) (freq : Nat) (resolution : Nat)
  | ledcAttachPin (pin : Nat) (channel : Nat)
  | ledcWrite (channel : Nat) (duty : Nat)
  | analogWrite (pin : Nat) (duty : Nat)
deriving DecidableEq, Repr

/-- Which branch of `#ifdef ESP32` is compiled. -/
inductive Backend where
  | ESP32
  | generic
deriving DecidableEq, Repr

/-- Conversion of an integer argument to `uint8_t`. -/
def uint8 (n : Nat) : Nat := n % 256

/-- Private fields of class `L298N` (l298n.hpp, lines 105-110). -/
structure L298N where
  _in1 : Nat
  _in2 : Nat
  _en : Nat
  _hasEnablePin : Bool
  _speed : Nat
  _running : Bool
deriving DecidableEq, Repr

namespace L298N

/-- Constructor `L298N(in1, in2, en)` (l298n.cpp, lines 4-6). -/
def withEnable (in1 in2 en : Nat) : L298N :=
  { _in1 := uint8 in1, _in2 := uint8 in2, _en := uint8 en,
    _hasEnablePin := true, _speed := 255, _running := false }

/-- Constructor `L298N(in1, in2)` (l298n.cpp, lines 9-11). -/
def withoutEnable (in1 in2 : Nat) : L298N :=
  { _in1 := uint8 in1, _in2 := uint8 in2, _en := 0,
    _hasEnablePin := false, _speed := 255, _running := false }

/-- Member `_updateSpeed` (l298n.cpp, lines 104-115). -/
def _updateSpeed (b : Backend) (d : L298N) : L298N × List HwCall :=
  if d._hasEnablePin then
    match b with
    | Backend.ESP32 => (d, [HwCall.ledcWrite 0 d._speed])
    | Backend.generic => (d, [HwCall.analogWrite d._en d._speed])
  else
    (d, [])

/-- Member `forward` (l298n.cpp, lines 34-44). -/
def forward (b : Backend) (d : L298N) (speed : Nat) : L298N × List HwCall :=
  let d1 := { d with _speed := uint8 speed }
  let d2 := { d1 with _running := true }
  let w := [HwCall.digitalWrite d2._in1 Level.HIGH, HwCall.digitalWrite d2._in2 Level.LOW]
  let r := _updateSpeed b d2
  (r.1, w ++ r.2)

/-- Member `backward` (l298n.cpp, lines 46-56). -/
def backward (b : Backend) (d : L298N) (speed : Nat) : L298N × List HwCall :=
  let d1 := { d with _speed := uint8 speed }
  let d2 := { d1 with _running := true }
  let w := [HwCall.digitalWrite d2._in1 Level.LOW, HwCall.digitalWrite d2._in2 Level.HIGH]
  let r := _updateSpeed b d2
  (r.1, w ++ r.2)

/-- Member `brake` (l298n.cpp, lines 58-68). -/
def brake (b : Backend) (d : L298N) : L298N × List HwCall :=
  let d1 := { d with _running := false }
  let d2 := { d1 with _speed := 0 }
  let w := [HwCall.digitalWrite d2._in1 Level.HIGH, HwCall.digitalWrite d2._in2 Level.HIGH]
  let r := _updateSpeed b d2
  (r.1, w ++ r.2)

/-- Member `coast` (l298n.cpp, lines 70-80). -/
def coast (b : Backend) (d : L298N) : L298N × List HwCall :=
  let d1 := { d with _running := false }
  let d2 := { d1 with _speed := 0 }
  let w := [HwCall.digitalWrite d2._in1 Level.LOW, HwCall.digitalWrite d2._in2 Level.LOW]
  let r := _updateSpeed b d2
  (r.1, w ++ r.2)

/-- Member `stop` (l298n.cpp, lines 82-85). -/
def stop (b : Backend) (d : L298N) : L298N × List HwCall :=
  brake b d

/-- Member `setSpeed` (l298n.cpp, lines 87-94). -/
def setSpeed (b : Backend) (d : L298N) (speed : Nat) : L298N × List HwCall :=
  let d1 := { d with _speed := uint8 speed }
  if d1._running then _updateSpeed b d1 else (d1, [])

/-- Member `getSpeed` (l298n.cpp, lines 96-98). -/
def getSpeed (d : L298N) : Nat := d._speed

/-- Member `isRunning` (l298n.cpp, lines 100-102). -/
def isRunning (d : L298N) : Bool := d._running

/-- Member `begin` (l298n.cpp, lines 13-32). -/
def begin (b : Backend) (d : L298N) : L298N × List HwCall :=
  let modes := [HwCall.pinMode d._in1 PinModeArg.OUTPUT, HwCall.pinMode d._in2 PinModeArg.OUTPUT]
  let pwm :=
    if d._hasEnablePin then
      HwCall.pinMode d._en PinModeArg.OUTPUT ::
        (match b with
         | Backend.ESP32 => [HwCall.ledcSetup 0 5000 8, HwCall.ledcAttachPin d._en 0]
         | Backend.generic => [])
    else []
  let r := stop b d
  (r.1, modes ++ pwm ++ r.2)

end L298N

/-- One call of a public member function, as issued by a caller. -/
inductive Op where
  | begin
  | forward (speed : Nat)
  | backward (speed : Nat)
  | brake
  | coast
  | stop
  | setSpeed (speed : Nat)
  | getSpeed
  | isRunning
deriving DecidableEq, Repr

/-- Effect of one public call on the object and on the hardware. -/
def step (b : Backend) (d : L298N) : Op → L298N × List HwCall
  | Op.begin => d.begin b
  | Op.forward s => d.forward b s
  | Op.backward s => d.backward b s
  | Op.brake => d.brake b
  | Op.coast => d.coast b
  | Op.stop => d.stop b
  | Op.setSpeed s => d.setSpeed b s
  | Op.getSpeed => (d, [])
  | Op.isRunning => (d, [])

/-- Effect of a sequence of public calls: final state and the whole call trace. -/
def run (b : Backend) (d : L298N) : List Op → L298N × List HwCall
  | [] => (d, [])
  | op :: ops =>
    let r := step b d op
    let rest := run b r.1 ops
    (rest.1, r.2 ++ rest.2)

/-- The `digitalWrite` calls of a trace, as (pin, level) pairs in order. -/
def dirWrites : List HwCall → List (Nat × Level)
  | [] => []
  | HwCall.digitalWrite p l :: cs => (p, l) :: dirWrites cs
  | _ :: cs => dirWrites cs

/-- Whether a call goes to the PWM backend (either variant). -/
def isPwmCall : HwCall → Bool
  | HwCall.ledcSetup _ _ _ => true
  | HwCall.ledcAttachPin _ _ => true
  | HwCall.ledcWrite _ _ => true
  | HwCall.analogWrite _ _ => true
  | _ => false

/-- The duty values written to the PWM backend by a trace, in order. -/
def dutyWrites : List HwCall → List Nat
  | [] => []
  | HwCall.ledcWrite _ duty :: cs => duty :: dutyWrites cs
  | HwCall.analogWrite _ duty :: cs => duty :: dutyWrites cs
  | _ :: cs => dutyWrites cs

/-- Whether a call only touches a direction pin of `d`: an output-mode
configuration or a digital write of `_in1` or `_in2`. -/
def isDirPinCall (d : L298N) : HwCall → Bool
  | HwCall.pinMode p m => (p = d._in1 ∨ p = d._in2) ∧ m = PinModeArg.OUTPUT
  | HwCall.digitalWrite p _ => p = d._in1 ∨ p = d._in2
  | _ => false

/-- PWM channel a pin is routed to after a trace: the channel named by the
last `ledcAttachPin` issued for that pin, if any. -/
def attachedChannel (pin : Nat) : List HwCall → Option Nat
  | [] => none
  | c :: cs =>
    match attachedChannel pin cs with
    | some ch => some ch
    | none =>
      match c with
      | HwCall.ledcAttachPin p ch => if p = pin then some ch else none
      | _ => none

/-- Duty held by a PWM channel after a trace: the value of the last
`ledcWrite` issued for that channel, if any. -/
def channelDuty (channel : Nat) : List HwCall → Option Nat
  | [] => none
  | c :: cs =>
    match channelDuty channel cs with
    | some duty => some duty
    | none =>
      match c with
      | HwCall.ledcWrite ch duty => if ch = channel then some duty else none
      | _ => none

/-- Object `motorFrontLeft` of examples/esp32_dual_motor/src/main.cpp, line 102,
with the fallback pin numbers of lines 61-69. -/
def motorFrontLeft : L298N := L298N.withEnable 33 25 32

/-- Object `motorFrontRight` of examples/esp32_dual_motor/src/main.cpp, line 103,
with the fallback pin numbers of lines 70-78. -/
def motorFrontRight : L298N := L298N.withEnable 26 27 14

/-- Two-motor session on the ESP32 build: both objects are initialised as in
`setup()`, then the left motor is driven forward at 200 and the right motor is
braked. Returns the final left object, the final right object and the trace. -/
def twoMotorSession : L298N × L298N × List HwCall :=
  let l0 := motorFrontLeft.begin Backend.ESP32
  let r0 := motorFrontRight.begin Backend.ESP32
  let l1 := l0.1.forward Backend.ESP32 200
  let r1 := r0.1.brake Backend.ESP32
  (l1.1, r1.1, l0.2 ++ r0.2 ++ l1.2 ++ r1.2)

/-- Call `forward()` without an argument: the declaration
`void forward(uint8_t speed = 255)` (l298n.hpp, line 47) supplies 255. -/
def L298N.forwardDefault (b : Backend) (d : L298N) : L298N × List HwCall :=
  d.forward b 255

/-- Call `backward()` without an argument: the declaration
`void backward(uint8_t speed = 255)` (l298n.hpp, line 54) supplies 255. -/
def L298N.backwardDefault (b : Backend) (d : L298N) : L298N × List HwCall :=
  d.backward b 255

/-- Constructor `L298N(in1, in2, en)` together with the hardware calls of its
body, which is empty (l298n.cpp, lines 4-6). -/
def L298N.constructEnable (in1 in2 en : Nat) : L298N × List HwCall :=
  (L298N.withEnable in1 in2 en, [])

/-- Constructor `L298N(in1, in2)` together with the hardware calls of its
body, which is empty (l298n.cpp, lines 9-11). -/
def L298N.constructNoEnable (in1 in2 : Nat) : L298N × List HwCall :=
  (L298N.withoutEnable in1 in2, [])

/-- Whether a public call is `forward` or `backward`. -/
def isDriveCall : Op → Bool
  | Op.forward _ => true
  | Op.backward _ => true
  | _ => false

/-- Whether a public call is one of forward, backward, brake, coast, stop, begin. -/
def isPostureCall : Op → Bool
  | Op.forward _ => true
  | Op.backward _ => true
  | Op.brake => true
  | Op.coast => true
  | Op.stop => true
  | Op.begin => true
  | _ => false

/-- The last call of a sequence that is one of forward, backward, brake, coast,
stop, begin, if the sequence has one. -/
def lastPostureCall : List Op → Option Op
  | [] => none
  | op :: ops =>
    match lastPostureCall ops with
    | some o => some o
    | none => if isPostureCall op then some op else none

/-- The duty most recently written to the PWM backend by a trace, if any. -/
def lastDuty : List HwCall → Option Nat
  | [] => none
  | c :: cs =>
    match lastDuty cs with
    | some duty => some duty
    | none =>
      match c with
      | HwCall.ledcWrite _ duty => some duty
      | HwCall.analogWrite _ duty => some duty
      | _ => none

/-- The level most recently written to a pin by `digitalWrite` in a trace, if any. -/
def pinLevel (pin : Nat) : List HwCall → Option Level
  | [] => none
  | c :: cs =>
    match pinLevel pin cs with
    | some l => some l
    | none =>
      match c with
      | HwCall.digitalWrite p l => if p = pin then some l else none
      | _ => none

/-- The driver state after each call of a sequence, in order. -/
def runStates (b : Backend) (d : L298N) : List Op → List L298N
  | [] => []
  | op :: ops => (step b d op).1 :: runStates b (step b d op).1 ops

/-- Number of `begin` calls in a sequence. -/
def countBegin : List Op → Nat
  | [] => 0
  | Op.begin :: ops => countBegin ops + 1
  | _ :: ops => countBegin ops

/-- Reading of an ESP32-build call on the generic build for a driver whose enable
pin is `en`: the channel set-up `ledcSetup(0, 5000, 8)` and the binding
`ledcAttachPin(en, 0)` have no counterpart, a duty write to channel 0 becomes
`analogWrite(en, duty)`, and every other call is kept as it is. -/
def toGenericCall (en : Nat) : HwCall → Option HwCall
  | HwCall.ledcSetup ch freq res =>
    if ch = 0 ∧ freq = 5000 ∧ res = 8 then none else some (HwCall.ledcSetup ch freq res)
  | HwCall.ledcAttachPin p ch =>
    if p = en ∧ ch = 0 then none else some (HwCall.ledcAttachPin p ch)
  | HwCall.ledcWrite ch duty =>
    if ch = 0 then some (HwCall.analogWrite en duty) else some (HwCall.ledcWrite ch duty)
  | c => some c

/-- Whether a call stays within the resources of driver `d` on build `b`: a
digital write goes to `_in1` or `_in2`; a pin configuration goes to `_in1`,
`_in2` or, in full mode, `_en`; `analogWrite` occurs only on the generic build in
full mode and goes to `_en`; the `ledc` calls occur only on the ESP32 build in
full mode, and `ledcAttachPin` names `_en`. -/
def isLocalCall (b : Backend) (d : L298N) : HwCall → Bool
  | HwCall.digitalWrite p _ => p = d._in1 ∨ p = d._in2
  | HwCall.pinMode p _ => p = d._in1 ∨ p = d._in2 ∨ (d._hasEnablePin = true ∧ p = d._en)
  | HwCall.analogWrite p _ => b = Backend.generic ∧ d._hasEnablePin = true ∧ p = d._en
  | HwCall.ledcAttachPin p _ => b = Backend.ESP32 ∧ d._hasEnablePin = true ∧ p = d._en
  | HwCall.ledcSetup _ _ _ => b = Backend.ESP32 ∧ d._hasEnablePin = true
  | HwCall.ledcWrite _ _ => b = Backend.ESP32 ∧ d._hasEnablePin = true

/-- The scenario of the specification's last testable property, after
construction with (in1 = 2, in2 = 3, en = 4). -/
def scenarioOps : List Op :=
  [Op.begin, Op.forward 200, Op.setSpeed 100, Op.coast, Op.setSpeed 50, Op.forward 255]

/-- Trace of the hardware calls issued by each call of a sequence, call by call. -/
def runTraces (b : Backend) (d : L298N) : List Op → List (List HwCall)
  | [] => []
  | op :: ops => (step b d op).2 :: runTraces b (step b d op).1 ops

/-- Full-mode driver (in1 = 2, in2 = 3, en = 4) on the ESP32 build after
`begin()` and then `setSpeed(50)` while stopped: the speed 50 is staged. -/
def stagedDriver : L298N :=
  (((L298N.withEnable 2 3 4).begin Backend.ESP32).1.setSpeed Backend.ESP32 50).1

/-- The PWM channels targeted by the duty writes (`ledcWrite`) of a trace, in order. -/
def dutyChannels : List HwCall → List Nat
  | [] => []
  | HwCall.ledcWrite ch _ :: cs => ch :: dutyChannels cs
  | _ :: cs => dutyChannels cs

/-- Whether a call, if it is a `ledc` call, names PWM channel 0, and, if it binds
a pin to a channel, binds the enable pin of `d`. Calls outside the `ledc` family
pass. -/
def usesChannelZero (d : L298N) : HwCall → Bool
  | HwCall.ledcSetup ch _ _ => ch = 0
  | HwCall.ledcAttachPin p ch => p = d._en ∧ ch = 0
  | HwCall.ledcWrite ch _ => ch = 0
  | _ => true

/-! ## Frame lemmas shared by several results -/

theorem updateSpeed_state (b : Backend) (d : L298N) : (d._updateSpeed b).1 = d := by
  unfold L298N._updateSpeed
  cases b <;> cases d._hasEnablePin <;> rfl

theorem updateSpeed_reduced (b : Backend) (d : L298N) (h : d._hasEnablePin = false) :
    (d._updateSpeed b).2 = [] := by
  unfold L298N._updateSpeed
  simp [h]

theorem updateSpeed_full (b : Backend) (d : L298N) (h : d._hasEnablePin = true) :
    (d._updateSpeed b).2 =
      match b with
      | Backend.ESP32 => [HwCall.ledcWrite 0 d._speed]
      | Backend.generic => [HwCall.analogWrite d._en d._speed] := by
  unfold L298N._updateSpeed
  cases b <;> simp [h]

/-- No public call changes the stored pins or the enable-pin flag. -/
theorem step_config (b : Backend) (d : L298N) (op : Op) :
    (step b d op).1._in1 = d._in1 ∧ (step b d op).1._in2 = d._in2 ∧
    (step b d op).1._en = d._en ∧ (step b d op).1._hasEnablePin = d._hasEnablePin := by
  cases op <;>
    simp [step, L298N.begin, L298N.stop, L298N.forward, L298N.backward, L298N.brake,
      L298N.coast, L298N.setSpeed, updateSpeed_state]
  split <;> simp [updateSpeed_state]

/-- In reduced mode every call issued by one public call is a direction-pin call. -/
theorem step_reduced_calls (b : Backend) (d : L298N) (op : Op)
    (h : d._hasEnablePin = false) :
    ∀ c ∈ (step b d op).2, isDirPinCall d c = true := by
  cases op <;>
    simp [step, L298N.begin, L298N.stop, L298N.forward, L298N.backward, L298N.brake,
      L298N.coast, L298N.setSpeed, updateSpeed_reduced, h, isDirPinCall]
  split <;> simp [updateSpeed_reduced, h]

/-- A direction-pin call is never a PWM-backend call, and never configures a
pin other than `_in1` and `_in2`. -/
theorem dirPinCall_not_pwm (d : L298N) (c : HwCall) (h : isDirPinCall d c = true) :
    isPwmCall c = false := by
  cases c <;> simp_all [isDirPinCall, isPwmCall]

/-- In reduced mode the whole trace of a call sequence consists of direction-pin calls. -/
theorem run_reduced_calls (b : Backend) (ops : List Op) :
    ∀ d : L298N, d._hasEnablePin = false →
      ∀ c ∈ (run b d ops).2, isDirPinCall d c = true := by
  induction ops with
  | nil => intro d _ c hc; simp [run] at hc
  | cons op ops ih =>
    intro d h c hc
    simp only [run, List.mem_append] at hc
    obtain ⟨h1, h2, _, h4⟩ := step_config b d op
    rcases hc with hc | hc
    · exact step_reduced_calls b d op h c hc
    · have := ih (step b d op).1 (by rw [h4]; exact h) c hc
      cases c <;> simp_all [isDirPinCall]

/-! ## Direction and speed contracts of the single calls -/

/-- C1: direction polarity law. For every backend, driver state and speed,
the digital writes of `forward` are exactly `_in1 := HIGH` then `_in2 := LOW`,
those of `backward` are exactly `_in1 := LOW` then `_in2 := HIGH`; the two
patterns differ from each other and from HIGH/HIGH and LOW/LOW. -/
theorem C1_direction_polarity (b : Backend) (d : L298N) (s : Nat) :
    dirWrites (d.forward b s).2 = [(d._in1, Level.HIGH), (d._in2, Level.LOW)] ∧
    dirWrites (d.backward b s).2 = [(d._in1, Level.LOW), (d._in2, Level.HIGH)] ∧
    dirWrites (d.forward b s).2 ≠ dirWrites (d.backward b s).2 ∧
    dirWrites (d.forward b s).2 ≠ [(d._in1, Level.HIGH), (d._in2, Level.HIGH)] ∧
    dirWrites (d.forward b s).2 ≠ [(d._in1, Level.LOW), (d._in2, Level.LOW)] ∧
    dirWrites (d.backward b s).2 ≠ [(d._in1, Level.HIGH), (d._in2, Level.HIGH)] ∧
    dirWrites (d.backward b s).2 ≠ [(d._in1, Level.LOW), (d._in2, Level.LOW)] := by
  have hf : dirWrites (d.forward b s).2 = [(d._in1, Level.HIGH), (d._in2, Level.LOW)] := by
    cases b <;> cases h : d._hasEnablePin <;>
      simp [L298N.forward, L298N._updateSpeed, dirWrites, h]
  have hb : dirWrites (d.backward b s).2 = [(d._in1, Level.LOW), (d._in2, Level.HIGH)] := by
    cases b <;> cases h : d._hasEnablePin <;>
      simp [L298N.backward, L298N._updateSpeed, dirWrites, h]
  rw [hf, hb]
  simp

/-- C2: for every backend, prior state and speed `s` in [0,255] (0 included),
after `forward(s)` and after `backward(s)` the driver reports `getSpeed() = s`
and `isRunning() = true`. -/
theorem C2_forward_backward_state (b : Backend) (d : L298N) (s : Nat) (hs : s ≤ 255) :
    (d.forward b s).1.getSpeed = s ∧ (d.forward b s).1.isRunning = true ∧
    (d.backward b s).1.getSpeed = s ∧ (d.backward b s).1.isRunning = true := by
  have h : s % 256 = s := Nat.mod_eq_of_lt (by omega)
  simp [L298N.forward, L298N.backward, updateSpeed_state, L298N.getSpeed,
    L298N.isRunning, uint8, h]

theorem C2_forward_backward_state_witness :
    (0 : Nat) ≤ 255 ∧
    ((L298N.withEnable 2 3 4).forward Backend.ESP32 0).1.getSpeed = 0 ∧
    ((L298N.withEnable 2 3 4).forward Backend.ESP32 0).1.isRunning = true ∧
    ((L298N.withEnable 2 3 4).backward Backend.ESP32 0).1.getSpeed = 0 ∧
    ((L298N.withEnable 2 3 4).backward Backend.ESP32 0).1.isRunning = true :=
  ⟨by decide, C2_forward_backward_state Backend.ESP32 (L298N.withEnable 2 3 4) 0 (by decide)⟩

/-- C3: for every backend and prior state, after `brake()` and after `coast()`
the driver reports `getSpeed() = 0` and `isRunning() = false`. -/
theorem C3_brake_coast_state (b : Backend) (d : L298N) :
    (d.brake b).1.getSpeed = 0 ∧ (d.brake b).1.isRunning = false ∧
    (d.coast b).1.getSpeed = 0 ∧ (d.coast b).1.isRunning = false := by
  simp [L298N.brake, L298N.coast, updateSpeed_state, L298N.getSpeed, L298N.isRunning]

/-- C4: in full mode, for every prior state, the whole trace of `brake()` is
`_in1 := HIGH`, `_in2 := HIGH`, then one duty write of 0, and the whole trace of
`coast()` is `_in1 := LOW`, `_in2 := LOW`, then one duty write of 0; the duty
write goes to channel 0 on the ESP32 build and to `_en` on the generic build. -/
theorem C4_brake_coast_trace (b : Backend) (d : L298N) (hfull : d._hasEnablePin = true) :
    (d.brake b).2 =
      [HwCall.digitalWrite d._in1 Level.HIGH, HwCall.digitalWrite d._in2 Level.HIGH,
        match b with
        | Backend.ESP32 => HwCall.ledcWrite 0 0
        | Backend.generic => HwCall.analogWrite d._en 0] ∧
    (d.coast b).2 =
      [HwCall.digitalWrite d._in1 Level.LOW, HwCall.digitalWrite d._in2 Level.LOW,
        match b with
        | Backend.ESP32 => HwCall.ledcWrite 0 0
        | Backend.generic => HwCall.analogWrite d._en 0] ∧
    dutyWrites (d.brake b).2 = [0] ∧ dutyWrites (d.coast b).2 = [0] := by
  cases b <;> simp [L298N.brake, L298N.coast, L298N._updateSpeed, hfull, dutyWrites]

theorem C4_brake_coast_trace_witness :
    ((L298N.withEnable 2 3 4).forward Backend.ESP32 200).1._hasEnablePin = true ∧
    (((L298N.withEnable 2 3 4).forward Backend.ESP32 200).1.brake Backend.ESP32).2 =
      [HwCall.digitalWrite 2 Level.HIGH, HwCall.digitalWrite 3 Level.HIGH,
        HwCall.ledcWrite 0 0] ∧
    (((L298N.withEnable 2 3 4).forward Backend.ESP32 200).1.coast Backend.ESP32).2 =
      [HwCall.digitalWrite 2 Level.LOW, HwCall.digitalWrite 3 Level.LOW,
        HwCall.ledcWrite 0 0] :=
  ⟨by decide,
    (C4_brake_coast_trace Backend.ESP32
      ((L298N.withEnable 2 3 4).forward Backend.ESP32 200).1 (by decide)).1,
    (C4_brake_coast_trace Backend.ESP32
      ((L298N.withEnable 2 3 4).forward Backend.ESP32 200).1 (by decide)).2.1⟩

/-- C5: `stop()` behaves identically to `brake()`: for every backend and state
both give the same resulting state and the same trace, whose digital writes are
`_in1 := HIGH`, `_in2 := HIGH`; this differs from the LOW/LOW writes of `coast()`. -/
theorem C5_stop_is_brake (b : Backend) (d : L298N) :
    d.stop b = d.brake b ∧
    dirWrites (d.stop b).2 = [(d._in1, Level.HIGH), (d._in2, Level.HIGH)] ∧
    dirWrites (d.coast b).2 = [(d._in1, Level.LOW), (d._in2, Level.LOW)] ∧
    dirWrites (d.stop b).2 ≠ dirWrites (d.coast b).2 := by
  have hs : dirWrites (d.stop b).2 = [(d._in1, Level.HIGH), (d._in2, Level.HIGH)] := by
    cases b <;> cases h : d._hasEnablePin <;>
      simp [L298N.stop, L298N.brake, L298N._updateSpeed, dirWrites, h]
  have hc : dirWrites (d.coast b).2 = [(d._in1, Level.LOW), (d._in2, Level.LOW)] := by
    cases b <;> cases h : d._hasEnablePin <;>
      simp [L298N.coast, L298N._updateSpeed, dirWrites, h]
  rw [hs, hc]
  simp [L298N.stop]

/-- C6: lazy-apply law. For every backend, every state with `isRunning() = false`
and every `uint8_t` speed `s`, `setSpeed(s)` issues no hardware call at all (so no
PWM write and no direction-pin write), leaves `isRunning() = false`, and a
following `getSpeed()` returns `s`. -/
theorem C6_setSpeed_lazy (b : Backend) (d : L298N) (s : Nat)
    (hstopped : d.isRunning = false) (hs : s < 256) :
    (d.setSpeed b s).2 = [] ∧
    (d.setSpeed b s).1.isRunning = false ∧
    (d.setSpeed b s).1.getSpeed = s := by
  have h : s % 256 = s := Nat.mod_eq_of_lt hs
  simp only [L298N.isRunning] at hstopped
  simp [L298N.setSpeed, L298N.getSpeed, L298N.isRunning, uint8, h, hstopped]

theorem C6_setSpeed_lazy_witness :
    ((L298N.withEnable 2 3 4).coast Backend.ESP32).1.isRunning = false ∧ 50 < 256 ∧
    ((((L298N.withEnable 2 3 4).coast Backend.ESP32).1).setSpeed Backend.ESP32 50).2 = [] ∧
    ((((L298N.withEnable 2 3 4).coast Backend.ESP32).1).setSpeed Backend.ESP32 50).1.isRunning
      = false ∧
    ((((L298N.withEnable 2 3 4).coast Backend.ESP32).1).setSpeed Backend.ESP32 50).1.getSpeed
      = 50 :=
  ⟨by decide, by decide,
    C6_setSpeed_lazy Backend.ESP32 ((L298N.withEnable 2 3 4).coast Backend.ESP32).1 50
      (by decide) (by decide)⟩

/-- C7: for every backend, every full-mode state with `isRunning() = true` and
every `uint8_t` speed `s` (0 included), the whole trace of `setSpeed(s)` is one
duty write of `s` (to channel 0 on the ESP32 build, to `_en` on the generic
build), hence no direction-pin write; afterwards `getSpeed() = s` and
`isRunning() = true`. -/
theorem C7_setSpeed_running (b : Backend) (d : L298N) (s : Nat)
    (hfull : d._hasEnablePin = true) (hrun : d.isRunning = true) (hs : s < 256) :
    (d.setSpeed b s).2 =
      [match b with
        | Backend.ESP32 => HwCall.ledcWrite 0 s
        | Backend.generic => HwCall.analogWrite d._en s] ∧
    dutyWrites (d.setSpeed b s).2 = [s] ∧
    dirWrites (d.setSpeed b s).2 = [] ∧
    (d.setSpeed b s).1.getSpeed = s ∧
    (d.setSpeed b s).1.isRunning = true := by
  have h : s % 256 = s := Nat.mod_eq_of_lt hs
  simp only [L298N.isRunning] at hrun
  cases b <;>
    simp [L298N.setSpeed, L298N._updateSpeed, L298N.getSpeed, L298N.isRunning, uint8, h,
      hrun, hfull, dutyWrites, dirWrites]

theorem C7_setSpeed_running_witness :
    ((L298N.withEnable 2 3 4).forward Backend.ESP32 200).1._hasEnablePin = true ∧
    ((L298N.withEnable 2 3 4).forward Backend.ESP32 200).1.isRunning = true ∧
    0 < 256 ∧
    ((((L298N.withEnable 2 3 4).forward Backend.ESP32 200).1).setSpeed Backend.ESP32 0).2 =
      [HwCall.ledcWrite 0 0] :=
  ⟨by decide, by decide, by decide,
    (C7_setSpeed_running Backend.ESP32 ((L298N.withEnable 2 3 4).forward Backend.ESP32 200).1 0
      (by decide) (by decide) (by decide)).1⟩

/-- C8: reduced-mode invariant. For a driver built by the two-argument
constructor, on either backend, every call in the trace of every finite sequence
of public calls is an output-mode configuration or a digital write of `_in1` or
`_in2`; in particular none is a PWM-backend call (`ledcSetup`, `ledcAttachPin`,
`ledcWrite`, `analogWrite`) and none configures a pin as enable pin. A
`setSpeed(s)` issued after the sequence still makes `getSpeed()` return `s`. -/
theorem C8_reduced_mode (b : Backend) (in1 in2 : Nat) (ops : List Op) (s : Nat)
    (hs : s < 256) :
    (∀ c ∈ (run b (L298N.withoutEnable in1 in2) (ops ++ [Op.setSpeed s])).2,
      isPwmCall c = false ∧ isDirPinCall (L298N.withoutEnable in1 in2) c = true) ∧
    (∀ c ∈ (run b (L298N.withoutEnable in1 in2) ops).2,
      isPwmCall c = false ∧ isDirPinCall (L298N.withoutEnable in1 in2) c = true) ∧
    (step b (run b (L298N.withoutEnable in1 in2) ops).1 (Op.setSpeed s)).1.getSpeed = s := by
  have h : s % 256 = s := Nat.mod_eq_of_lt hs
  have hred : (L298N.withoutEnable in1 in2)._hasEnablePin = false := rfl
  refine ⟨fun c hc => ?_, fun c hc => ?_, ?_⟩
  · have hd := run_reduced_calls b _ _ hred c hc
    exact ⟨dirPinCall_not_pwm _ c hd, hd⟩
  · have hd := run_reduced_calls b _ _ hred c hc
    exact ⟨dirPinCall_not_pwm _ c hd, hd⟩
  · simp only [step, L298N.setSpeed, L298N.getSpeed]
    split <;> simp [updateSpeed_state, uint8, h]

theorem C8_reduced_mode_witness :
    77 < 256 ∧
    (step Backend.generic
      (run Backend.generic (L298N.withoutEnable 5 6)
        [Op.begin, Op.forward 200, Op.coast]).1 (Op.setSpeed 77)).1.getSpeed = 77 :=
  ⟨by decide,
    (C8_reduced_mode Backend.generic 5 6 [Op.begin, Op.forward 200, Op.coast] 77
      (by decide)).2.2⟩

/-- C9: `begin()` in full mode on the ESP32 build, from any prior state, issues
exactly, in order: `_in1`, `_in2` and `_en` configured as outputs, channel 0 set
up at 5000 Hz with 8-bit resolution, `_en` attached to channel 0, then the brake
sequence `_in1 := HIGH`, `_in2 := HIGH`, duty 0 on channel 0; afterwards
`getSpeed() = 0` and `isRunning() = false`. -/
theorem C9_begin_full_esp32 (d : L298N) (hfull : d._hasEnablePin = true) :
    (d.begin Backend.ESP32).2 =
      [HwCall.pinMode d._in1 PinModeArg.OUTPUT, HwCall.pinMode d._in2 PinModeArg.OUTPUT,
        HwCall.pinMode d._en PinModeArg.OUTPUT,
        HwCall.ledcSetup 0 5000 8, HwCall.ledcAttachPin d._en 0,
        HwCall.digitalWrite d._in1 Level.HIGH, HwCall.digitalWrite d._in2 Level.HIGH,
        HwCall.ledcWrite 0 0] ∧
    (d.begin Backend.ESP32).1.getSpeed = 0 ∧
    (d.begin Backend.ESP32).1.isRunning = false := by
  simp [L298N.begin, L298N.stop, L298N.brake, L298N._updateSpeed, hfull, L298N.getSpeed,
    L298N.isRunning]

theorem C9_begin_full_esp32_witness :
    (L298N.withEnable 2 3 4)._hasEnablePin = true ∧
    (L298N.withEnable 2 3 4).getSpeed = 255 ∧
    ((L298N.withEnable 2 3 4).begin Backend.ESP32).1.getSpeed = 0 ∧
    ((L298N.withEnable 2 3 4).begin Backend.ESP32).1.isRunning = false :=
  ⟨by decide, by decide, (C9_begin_full_esp32 (L298N.withEnable 2 3 4) (by decide)).2⟩

/-- C10 (evaluation of the code): on the ESP32 build the two front motors of the
dual-motor example have different enable pins (32 and 14), yet after `begin()` both
pins are attached to PWM channel 0. When the left motor is then driven forward at
200 and the right motor braked, the right motor's duty write lands on channel 0,
so the channel feeding the left motor's enable pin holds duty 0 while the left
driver reports `isRunning() = true` and `getSpeed() = 200`. -/
theorem C10_shared_channel_zero :
    motorFrontLeft._en = 32 ∧ motorFrontRight._en = 14 ∧
    attachedChannel 32 twoMotorSession.2.2 = some 0 ∧
    attachedChannel 14 twoMotorSession.2.2 = some 0 ∧
    ((motorFrontRight.begin Backend.ESP32).1.brake Backend.ESP32).2 =
      [HwCall.digitalWrite 26 Level.HIGH, HwCall.digitalWrite 27 Level.HIGH,
        HwCall.ledcWrite 0 0] ∧
    channelDuty 0 twoMotorSession.2.2 = some 0 ∧
    twoMotorSession.1.isRunning = true ∧ twoMotorSession.1.getSpeed = 200 := by
  decide

/-! ## The fixed PWM channel of the ESP32 build -/

theorem attachedChannel_cons (pin : Nat) (c : HwCall) (cs : List HwCall) :
    attachedChannel pin (c :: cs) =
      match attachedChannel pin cs with
      | some ch => some ch
      | none =>
        match c with
        | HwCall.ledcAttachPin p ch => if p = pin then some ch else none
        | _ => none := by
  cases c <;> rfl

theorem attachedChannel_append (pin : Nat) (xs ys : List HwCall) :
    attachedChannel pin (xs ++ ys) =
      match attachedChannel pin ys with
      | some ch => some ch
      | none => attachedChannel pin xs := by
  induction xs with
  | nil => cases h : attachedChannel pin ys <;> simp [attachedChannel, h]
  | cons c cs ih =>
    rw [List.cons_append, attachedChannel_cons, attachedChannel_cons, ih]
    cases attachedChannel pin ys <;> rfl

theorem usesChannelZero_config (d e : L298N) (c : HwCall) (h : e._en = d._en) :
    usesChannelZero e c = usesChannelZero d c := by
  cases c <;> simp [usesChannelZero, h]

/-- Every `ledc` call of one public call names channel 0. -/
theorem step_channelZero (d : L298N) (op : Op) :
    (step Backend.ESP32 d op).2.all (usesChannelZero d) = true := by
  cases op <;> cases hf : d._hasEnablePin <;>
    simp [step, L298N.begin, L298N.stop, L298N.forward, L298N.backward, L298N.brake,
      L298N.coast, L298N.setSpeed, L298N._updateSpeed, hf, usesChannelZero]
  all_goals (cases hr : d._running <;> simp [usesChannelZero])

/-- Every `ledc` call of a call sequence names channel 0. -/
theorem run_channelZero (ops : List Op) :
    ∀ d : L298N, (run Backend.ESP32 d ops).2.all (usesChannelZero d) = true := by
  induction ops with
  | nil => intro d; simp [run]
  | cons op ops ih =>
    intro d
    have hrest := ih (step Backend.ESP32 d op).1
    have hfun : usesChannelZero (step Backend.ESP32 d op).1 = usesChannelZero d :=
      funext fun c => usesChannelZero_config d _ c (step_config Backend.ESP32 d op).2.2.1
    rw [hfun] at hrest
    simp only [run, List.all_append, step_channelZero, hrest, Bool.and_self]

/-- In a trace whose `ledc` calls all name channel 0, every duty write targets
channel 0. -/
theorem dutyChannels_of_channelZero (d : L298N) (tr : List HwCall)
    (h : tr.all (usesChannelZero d) = true) :
    (dutyChannels tr).all (fun ch => ch == 0) = true := by
  induction tr with
  | nil => rfl
  | cons c cs ih =>
    simp only [List.all_cons, Bool.and_eq_true] at h
    have ih2 := ih h.2
    have h1 := h.1
    cases c with
    | ledcWrite ch duty =>
      simp only [usesChannelZero, decide_eq_true_eq] at h1
      simp [dutyChannels, h1, ih2]
    | pinMode p m => simpa [dutyChannels] using ih2
    | digitalWrite p l => simpa [dutyChannels] using ih2
    | ledcSetup ch freq res => simpa [dutyChannels] using ih2
    | ledcAttachPin p ch => simpa [dutyChannels] using ih2
    | analogWrite p duty => simpa [dutyChannels] using ih2

/-- In a trace whose `ledc` calls all name channel 0, the enable pin is bound to
channel 0 if it is bound at all. -/
theorem attachedChannel_of_channelZero (d : L298N) (tr : List HwCall)
    (h : tr.all (usesChannelZero d) = true) :
    attachedChannel d._en tr = none ∨ attachedChannel d._en tr = some 0 := by
  induction tr with
  | nil => exact Or.inl rfl
  | cons c cs ih =>
    simp only [List.all_cons, Bool.and_eq_true] at h
    rw [attachedChannel_cons]
    rcases ih h.2 with hn | hs
    · rw [hn]
      cases c <;> simp_all [usesChannelZero]
    · rw [hs]; exact Or.inr rfl

/-- After `begin()` and any further calls, a full-mode driver's enable pin is bound
to channel 0. -/
theorem run_begin_attached (d : L298N) (ops : List Op) (hfull : d._hasEnablePin = true) :
    attachedChannel d._en (run Backend.ESP32 d (Op.begin :: ops)).2 = some 0 := by
  have hbegin : attachedChannel d._en (step Backend.ESP32 d Op.begin).2 = some 0 := by
    simp [step, L298N.begin, L298N.stop, L298N.brake, L298N._updateSpeed, hfull,
      attachedChannel_cons, attachedChannel]
  have hrest := run_channelZero ops (step Backend.ESP32 d Op.begin).1
  have hfun : usesChannelZero (step Backend.ESP32 d Op.begin).1 = usesChannelZero d :=
    funext fun c => usesChannelZero_config d _ c (step_config Backend.ESP32 d Op.begin).2.2.1
  rw [hfun] at hrest
  simp only [run]
  rw [attachedChannel_append]
  rcases attachedChannel_of_channelZero d _ hrest with hn | hs
  · rw [hn]; exact hbegin
  · rw [hs]

/-- C10 (the claim fails): on the ESP32 build the two front motors of the
dual-motor example have different enable pins, yet after `begin()` they are not
bound to distinct PWM channels, and it is not the case that the duty write issued
by braking the right motor avoids the channel the left motor's enable pin is
bound to. -/
theorem C10_distinct_channels_refuted :
    motorFrontLeft._en ≠ motorFrontRight._en ∧
    ¬ (attachedChannel motorFrontLeft._en (motorFrontLeft.begin Backend.ESP32).2 ≠
        attachedChannel motorFrontRight._en (motorFrontRight.begin Backend.ESP32).2) ∧
    ¬ (∀ ch ∈ dutyChannels ((motorFrontRight.begin Backend.ESP32).1.brake Backend.ESP32).2,
        attachedChannel motorFrontLeft._en twoMotorSession.2.2 ≠ some ch) := by
  decide

/-- C10 (amended): on the ESP32 build every full-mode driver is bound by
`begin()` to the one fixed PWM channel 0, whatever its enable pin: for any two
full-mode drivers, after `begin()` and any further calls each one's enable pin is
bound to channel 0, every `ledc` call either issues names channel 0, and so every
duty write issued through either targets channel 0, the channel the other's
enable pin is bound to. -/
theorem C10_fixed_channel_zero (a c : L298N) (opsA opsC : List Op)
    (ha : a._hasEnablePin = true) (hc : c._hasEnablePin = true) :
    attachedChannel a._en (run Backend.ESP32 a (Op.begin :: opsA)).2 = some 0 ∧
    attachedChannel c._en (run Backend.ESP32 c (Op.begin :: opsC)).2 = some 0 ∧
    (run Backend.ESP32 a (Op.begin :: opsA)).2.all (usesChannelZero a) = true ∧
    (run Backend.ESP32 c (Op.begin :: opsC)).2.all (usesChannelZero c) = true ∧
    (dutyChannels (run Backend.ESP32 a (Op.begin :: opsA)).2).all (fun ch => ch == 0) = true ∧
    (dutyChannels (run Backend.ESP32 c (Op.begin :: opsC)).2).all (fun ch => ch == 0) = true :=
  ⟨run_begin_attached a opsA ha, run_begin_attached c opsC hc,
    run_channelZero _ a, run_channelZero _ c,
    dutyChannels_of_channelZero a _ (run_channelZero _ a),
    dutyChannels_of_channelZero c _ (run_channelZero _ c)⟩

theorem C10_fixed_channel_zero_witness :
    motorFrontLeft._hasEnablePin = true ∧ motorFrontRight._hasEnablePin = true ∧
    motorFrontLeft._en ≠ motorFrontRight._en ∧
    attachedChannel motorFrontLeft._en
      (run Backend.ESP32 motorFrontLeft (Op.begin :: [Op.forward 200])).2 = some 0 ∧
    attachedChannel motorFrontRight._en
      (run Backend.ESP32 motorFrontRight (Op.begin :: [Op.brake])).2 = some 0 ∧
    (dutyChannels (run Backend.ESP32 motorFrontRight (Op.begin :: [Op.brake])).2).all
      (fun ch => ch == 0) = true :=
  ⟨by decide, by decide, by decide,
    (C10_fixed_channel_zero motorFrontLeft motorFrontRight [Op.forward 200] [Op.brake]
      (by decide) (by decide)).1,
    (C10_fixed_channel_zero motorFrontLeft motorFrontRight [Op.forward 200] [Op.brake]
      (by decide) (by decide)).2.1,
    (C10_fixed_channel_zero motorFrontLeft motorFrontRight [Op.forward 200] [Op.brake]
      (by decide) (by decide)).2.2.2.2.2⟩

/-! ## Shared lemmas on call sequences -/

/-- Effect of one public call on the running flag. -/
theorem step_running (b : Backend) (d : L298N) (op : Op) :
    (step b d op).1._running = if isPostureCall op then isDriveCall op else d._running := by
  cases op <;>
    simp [step, L298N.begin, L298N.stop, L298N.forward, L298N.backward, L298N.brake,
      L298N.coast, L298N.setSpeed, updateSpeed_state, isPostureCall, isDriveCall]
  split <;> simp [updateSpeed_state]

/-- The running flag after a call sequence is decided by the last posture call. -/
theorem run_running (b : Backend) (ops : List Op) :
    ∀ d : L298N, (run b d ops).1._running =
      match lastPostureCall ops with
      | some o => isDriveCall o
      | none => d._running := by
  induction ops with
  | nil => intro d; simp [run, lastPostureCall]
  | cons op ops ih =>
    intro d
    simp only [run, lastPostureCall]
    rw [ih (step b d op).1, step_running]
    cases lastPostureCall ops with
    | some o => rfl
    | none => cases h : isPostureCall op <;> simp

/-- The last posture call of a sequence is one of its calls. -/
theorem lastPostureCall_mem (ops : List Op) (o : Op) (h : lastPostureCall ops = some o) :
    o ∈ ops := by
  induction ops with
  | nil => simp [lastPostureCall] at h
  | cons op ops ih =>
    simp only [lastPostureCall] at h
    cases hl : lastPostureCall ops with
    | some o2 =>
      rw [hl] at h
      simp only [Option.some.injEq] at h
      subst h
      exact List.mem_cons_of_mem _ (ih hl)
    | none =>
      rw [hl] at h
      cases hp : isPostureCall op <;> simp [hp] at h
      subst h
      exact List.mem_cons_self _ _

/-- No call sequence changes the stored pins or the enable-pin flag. -/
theorem run_config (b : Backend) (ops : List Op) :
    ∀ d : L298N, (run b d ops).1._in1 = d._in1 ∧ (run b d ops).1._in2 = d._in2 ∧
      (run b d ops).1._en = d._en ∧ (run b d ops).1._hasEnablePin = d._hasEnablePin := by
  induction ops with
  | nil => intro d; simp [run]
  | cons op ops ih =>
    intro d
    obtain ⟨h1, h2, h3, h4⟩ := step_config b d op
    obtain ⟨k1, k2, k3, k4⟩ := ih (step b d op).1
    simp only [run]
    exact ⟨k1.trans h1, k2.trans h2, k3.trans h3, k4.trans h4⟩

/-! ## Staged speed, scenario, construction, running flag, configuration -/

/-- C11 (evaluation of the code): on the ESP32 build, a full-mode driver
(2, 3, 4) that is stopped after `begin()` and has speed 50 staged by
`setSpeed(50)` reports `getSpeed() = 50`; a following `forward()` or
`backward()` without argument writes duty 255, not 50, and leaves
`getSpeed() = 255`. -/
theorem C11_staged_speed_overwritten :
    stagedDriver._hasEnablePin = true ∧ stagedDriver.isRunning = false ∧
    stagedDriver.getSpeed = 50 ∧
    (stagedDriver.forwardDefault Backend.ESP32).2 =
      [HwCall.digitalWrite 2 Level.HIGH, HwCall.digitalWrite 3 Level.LOW,
        HwCall.ledcWrite 0 255] ∧
    (stagedDriver.forwardDefault Backend.ESP32).1.getSpeed = 255 ∧
    (stagedDriver.backwardDefault Backend.ESP32).2 =
      [HwCall.digitalWrite 2 Level.LOW, HwCall.digitalWrite 3 Level.HIGH,
        HwCall.ledcWrite 0 255] ∧
    (stagedDriver.backwardDefault Backend.ESP32).1.getSpeed = 255 := by
  decide

/-- C12: scenario trace. For a driver constructed with (2, 3, 4), the calls
`begin()`, `forward(200)`, `setSpeed(100)`, `coast()`, `setSpeed(50)`,
`forward(255)` issue, call by call, exactly the listed hardware calls (duty
writes to channel 0 on the ESP32 build and to pin 4 on the generic build), and
the pairs (`getSpeed()`, `isRunning()`) after each call are as listed; in
particular `setSpeed(50)` issues nothing and the last duty written is 255. -/
theorem C12_scenario_trace :
    runTraces Backend.ESP32 (L298N.withEnable 2 3 4) scenarioOps =
      [[HwCall.pinMode 2 PinModeArg.OUTPUT, HwCall.pinMode 3 PinModeArg.OUTPUT,
          HwCall.pinMode 4 PinModeArg.OUTPUT, HwCall.ledcSetup 0 5000 8,
          HwCall.ledcAttachPin 4 0, HwCall.digitalWrite 2 Level.HIGH,
          HwCall.digitalWrite 3 Level.HIGH, HwCall.ledcWrite 0 0],
        [HwCall.digitalWrite 2 Level.HIGH, HwCall.digitalWrite 3 Level.LOW,
          HwCall.ledcWrite 0 200],
        [HwCall.ledcWrite 0 100],
        [HwCall.digitalWrite 2 Level.LOW, HwCall.digitalWrite 3 Level.LOW,
          HwCall.ledcWrite 0 0],
        [],
        [HwCall.digitalWrite 2 Level.HIGH, HwCall.digitalWrite 3 Level.LOW,
          HwCall.ledcWrite 0 255]] ∧
    runTraces Backend.generic (L298N.withEnable 2 3 4) scenarioOps =
      [[HwCall.pinMode 2 PinModeArg.OUTPUT, HwCall.pinMode 3 PinModeArg.OUTPUT,
          HwCall.pinMode 4 PinModeArg.OUTPUT, HwCall.digitalWrite 2 Level.HIGH,
          HwCall.digitalWrite 3 Level.HIGH, HwCall.analogWrite 4 0],
        [HwCall.digitalWrite 2 Level.HIGH, HwCall.digitalWrite 3 Level.LOW,
          HwCall.analogWrite 4 200],
        [HwCall.analogWrite 4 100],
        [HwCall.digitalWrite 2 Level.LOW, HwCall.digitalWrite 3 Level.LOW,
          HwCall.analogWrite 4 0],
        [],
        [HwCall.digitalWrite 2 Level.HIGH, HwCall.digitalWrite 3 Level.LOW,
          HwCall.analogWrite 4 255]] ∧
    (runStates Backend.ESP32 (L298N.withEnable 2 3 4) scenarioOps).map
        (fun d => (d.getSpeed, d.isRunning)) =
      [(0, false), (200, true), (100, true), (0, false), (50, false), (255, true)] ∧
    (runStates Backend.generic (L298N.withEnable 2 3 4) scenarioOps).map
        (fun d => (d.getSpeed, d.isRunning)) =
      [(0, false), (200, true), (100, true), (0, false), (50, false), (255, true)] := by
  decide

/-- C13: construction. For `uint8_t` pin numbers, the three-argument constructor
yields `_hasEnablePin = true`, `getSpeed() = 255`, `isRunning() = false`, the
two-argument constructor yields `_hasEnablePin = false`, `getSpeed() = 255`,
`isRunning() = false`; both store `in1` and `in2` as given (the first also `en`)
and issue no hardware call. -/
theorem C13_construction (in1 in2 en : Nat) (h1 : in1 < 256) (h2 : in2 < 256)
    (h3 : en < 256) :
    (L298N.constructEnable in1 in2 en).1._hasEnablePin = true ∧
    (L298N.constructEnable in1 in2 en).1.getSpeed = 255 ∧
    (L298N.constructEnable in1 in2 en).1.isRunning = false ∧
    (L298N.constructEnable in1 in2 en).1._in1 = in1 ∧
    (L298N.constructEnable in1 in2 en).1._in2 = in2 ∧
    (L298N.constructEnable in1 in2 en).1._en = en ∧
    (L298N.constructEnable in1 in2 en).2 = [] ∧
    (L298N.constructNoEnable in1 in2).1._hasEnablePin = false ∧
    (L298N.constructNoEnable in1 in2).1.getSpeed = 255 ∧
    (L298N.constructNoEnable in1 in2).1.isRunning = false ∧
    (L298N.constructNoEnable in1 in2).1._in1 = in1 ∧
    (L298N.constructNoEnable in1 in2).1._in2 = in2 ∧
    (L298N.constructNoEnable in1 in2).2 = [] := by
  simp [L298N.constructEnable, L298N.constructNoEnable, L298N.withEnable,
    L298N.withoutEnable, L298N.getSpeed, L298N.isRunning, uint8,
    Nat.mod_eq_of_lt h1, Nat.mod_eq_of_lt h2, Nat.mod_eq_of_lt h3]

theorem C13_construction_witness :
    2 < 256 ∧ 3 < 256 ∧ 4 < 256 ∧
    (L298N.constructEnable 2 3 4).1._hasEnablePin = true ∧
    (L298N.constructEnable 2 3 4).1.getSpeed = 255 ∧
    (L298N.constructEnable 2 3 4).1.isRunning = false ∧
    (L298N.constructEnable 2 3 4).1._in1 = 2 :=
  ⟨by decide, by decide, by decide,
    (C13_construction 2 3 4 (by decide) (by decide) (by decide)).1,
    (C13_construction 2 3 4 (by decide) (by decide) (by decide)).2.1,
    (C13_construction 2 3 4 (by decide) (by decide) (by decide)).2.2.1,
    (C13_construction 2 3 4 (by decide) (by decide) (by decide)).2.2.2.1⟩

/-- C14: running-flag invariant. For a freshly constructed driver (either
constructor, either backend) and every finite call sequence, `isRunning()` is
true afterwards if and only if the sequence contains a forward or backward call
and its last call among forward, backward, brake, coast, stop, begin is a
forward or backward call; `setSpeed`, `getSpeed` and `isRunning` leave the flag
as it is in every state. -/
theorem C14_running_flag (b : Backend) (in1 in2 en : Nat) (ops : List Op) :
    ((run b (L298N.withEnable in1 in2 en) ops).1.isRunning = true ↔
      (∃ op ∈ ops, isDriveCall op = true) ∧
      (∃ o, lastPostureCall ops = some o ∧ isDriveCall o = true)) ∧
    ((run b (L298N.withoutEnable in1 in2) ops).1.isRunning = true ↔
      (∃ op ∈ ops, isDriveCall op = true) ∧
      (∃ o, lastPostureCall ops = some o ∧ isDriveCall o = true)) ∧
    (∀ (d : L298N) (s : Nat), (step b d (Op.setSpeed s)).1.isRunning = d.isRunning) ∧
    (∀ d : L298N, (step b d Op.getSpeed).1.isRunning = d.isRunning) ∧
    (∀ d : L298N, (step b d Op.isRunning).1.isRunning = d.isRunning) := by
  have key : ∀ d : L298N, d._running = false →
      ((run b d ops).1.isRunning = true ↔
        (∃ op ∈ ops, isDriveCall op = true) ∧
        (∃ o, lastPostureCall ops = some o ∧ isDriveCall o = true)) := by
    intro d hd
    simp only [L298N.isRunning]
    rw [run_running b ops d]
    cases hl : lastPostureCall ops with
    | none => simp [hd]
    | some o =>
      constructor
      · intro h
        exact ⟨⟨o, lastPostureCall_mem ops o hl, h⟩, o, rfl, h⟩
      · rintro ⟨_, o2, ho2, hdrive⟩
        simp only [Option.some.injEq] at ho2
        subst ho2
        exact hdrive
  refine ⟨key _ rfl, key _ rfl, ?_, ?_, ?_⟩
  · intro d s
    simp only [L298N.isRunning, step_running, isPostureCall]
    simp
  · intro d; rfl
  · intro d; rfl

/-- C15: configuration is immutable. For every backend, state and finite
sequence of begin, forward, backward, brake, coast, stop, setSpeed, getSpeed,
isRunning calls, the stored `_in1`, `_in2`, `_en` and `_hasEnablePin` after the
sequence, and after each single call, are those before it. -/
theorem C15_config_immutable (b : Backend) (d : L298N) (ops : List Op) :
    (run b d ops).1._in1 = d._in1 ∧ (run b d ops).1._in2 = d._in2 ∧
    (run b d ops).1._en = d._en ∧ (run b d ops).1._hasEnablePin = d._hasEnablePin ∧
    (∀ op : Op, (step b d op).1._in1 = d._in1 ∧ (step b d op).1._in2 = d._in2 ∧
      (step b d op).1._en = d._en ∧ (step b d op).1._hasEnablePin = d._hasEnablePin) := by
  obtain ⟨h1, h2, h3, h4⟩ := run_config b ops d
  exact ⟨h1, h2, h3, h4, fun op => step_config b d op⟩

/-! ## Trace lemmas for the last written duty and pin levels -/

theorem lastDuty_cons (c : HwCall) (cs : List HwCall) :
    lastDuty (c :: cs) =
      match lastDuty cs with
      | some duty => some duty
      | none =>
        match c with
        | HwCall.ledcWrite _ duty => some duty
        | HwCall.analogWrite _ duty => some duty
        | _ => none := by
  cases c <;> rfl

theorem pinLevel_cons (pin : Nat) (c : HwCall) (cs : List HwCall) :
    pinLevel pin (c :: cs) =
      match pinLevel pin cs with
      | some l => some l
      | none =>
        match c with
        | HwCall.digitalWrite p l => if p = pin then some l else none
        | _ => none := by
  cases c <;> rfl

theorem lastDuty_append (xs ys : List HwCall) :
    lastDuty (xs ++ ys) =
      match lastDuty ys with
      | some duty => some duty
      | none => lastDuty xs := by
  induction xs with
  | nil => cases h : lastDuty ys <;> simp [lastDuty, h]
  | cons c cs ih =>
    rw [List.cons_append, lastDuty_cons, lastDuty_cons, ih]
    cases lastDuty ys <;> rfl

theorem pinLevel_append (pin : Nat) (xs ys : List HwCall) :
    pinLevel pin (xs ++ ys) =
      match pinLevel pin ys with
      | some l => some l
      | none => pinLevel pin xs := by
  induction xs with
  | nil => cases h : pinLevel pin ys <;> simp [pinLevel, h]
  | cons c cs ih =>
    rw [List.cons_append, pinLevel_cons, pinLevel_cons, ih]
    cases pinLevel pin ys <;> rfl

theorem lastDuty_updateSpeed_full (b : Backend) (d : L298N) (h : d._hasEnablePin = true) :
    lastDuty (d._updateSpeed b).2 = some d._speed := by
  cases b <;> simp [L298N._updateSpeed, h, lastDuty]

theorem pinLevel_updateSpeed (b : Backend) (d : L298N) (pin : Nat) :
    pinLevel pin (d._updateSpeed b).2 = none := by
  cases b <;> cases h : d._hasEnablePin <;> simp [L298N._updateSpeed, h, pinLevel]

/-- One public call keeps the last written duty equal to the speed when running
and to 0 when stopped (full mode). -/
theorem step_lastDuty (b : Backend) (d : L298N) (op : Op) (tr : List HwCall)
    (hfull : d._hasEnablePin = true)
    (hinv : lastDuty tr = some (if d._running then d._speed else 0)) :
    lastDuty (tr ++ (step b d op).2) =
      some (if (step b d op).1._running then (step b d op).1._speed else 0) := by
  rw [lastDuty_append]
  cases op <;>
    simp [step, L298N.begin, L298N.stop, L298N.forward, L298N.backward, L298N.brake,
      L298N.coast, L298N.setSpeed, updateSpeed_state, lastDuty_append,
      lastDuty_updateSpeed_full, hfull, hinv, lastDuty]
  cases hr : d._running <;> simp [updateSpeed_state, lastDuty_updateSpeed_full, hfull, hr,
    hinv, lastDuty]

theorem run_lastDuty (b : Backend) (ops : List Op) :
    ∀ (d : L298N) (tr : List HwCall), d._hasEnablePin = true →
      lastDuty tr = some (if d._running then d._speed else 0) →
      lastDuty (tr ++ (run b d ops).2) =
        some (if (run b d ops).1._running then (run b d ops).1._speed else 0) := by
  induction ops with
  | nil => intro d tr _ hinv; simpa [run] using hinv
  | cons op ops ih =>
    intro d tr hfull hinv
    simp only [run, ← List.append_assoc]
    exact ih (step b d op).1 (tr ++ (step b d op).2)
      ((step_config b d op).2.2.2.trans hfull) (step_lastDuty b d op tr hfull hinv)

/-- One public call keeps the posture relation between the levels last written
to two distinct direction pins and the running flag; the posture calls establish
it whatever was written before. -/
theorem step_posture (b : Backend) (d : L298N) (op : Op) (tr : List HwCall)
    (hne : d._in1 ≠ d._in2)
    (hinv : isPostureCall op = false →
      ∃ l1 l2, pinLevel d._in1 tr = some l1 ∧ pinLevel d._in2 tr = some l2 ∧
        (l1 ≠ l2 ↔ d._running = true)) :
    ∃ l1 l2, pinLevel d._in1 (tr ++ (step b d op).2) = some l1 ∧
      pinLevel d._in2 (tr ++ (step b d op).2) = some l2 ∧
      (l1 ≠ l2 ↔ (step b d op).1._running = true) := by
  have hne2 : d._in2 ≠ d._in1 := fun h => hne h.symm
  cases op with
  | begin =>
    cases b <;> cases hf : d._hasEnablePin <;>
      simp [step, L298N.begin, L298N.stop, L298N.brake, L298N._updateSpeed, hf,
        pinLevel_append, pinLevel_cons, pinLevel, hne, hne2]
  | forward s =>
    simp [step, L298N.forward, updateSpeed_state, pinLevel_append, pinLevel_updateSpeed,
      pinLevel_cons, pinLevel, hne, hne2]
  | backward s =>
    simp [step, L298N.backward, updateSpeed_state, pinLevel_append, pinLevel_updateSpeed,
      pinLevel_cons, pinLevel, hne, hne2]
  | brake =>
    simp [step, L298N.brake, updateSpeed_state, pinLevel_append, pinLevel_updateSpeed,
      pinLevel_cons, pinLevel, hne, hne2]
  | coast =>
    simp [step, L298N.coast, updateSpeed_state, pinLevel_append, pinLevel_updateSpeed,
      pinLevel_cons, pinLevel, hne, hne2]
  | stop =>
    simp [step, L298N.stop, L298N.brake, updateSpeed_state, pinLevel_append,
      pinLevel_updateSpeed, pinLevel_cons, pinLevel, hne, hne2]
  | setSpeed s =>
    obtain ⟨l1, l2, h1, h2, h3⟩ := hinv rfl
    refine ⟨l1, l2, ?_, ?_, ?_⟩
    · cases hr : d._running <;>
        simp [step, L298N.setSpeed, hr, pinLevel_append, pinLevel_updateSpeed, pinLevel, h1]
    · cases hr : d._running <;>
        simp [step, L298N.setSpeed, hr, pinLevel_append, pinLevel_updateSpeed, pinLevel, h2]
    · rw [step_running]
      simpa [isPostureCall] using h3
  | getSpeed =>
    obtain ⟨l1, l2, h1, h2, h3⟩ := hinv rfl
    exact ⟨l1, l2, by simpa [step] using h1, by simpa [step] using h2, by simpa [step] using h3⟩
  | isRunning =>
    obtain ⟨l1, l2, h1, h2, h3⟩ := hinv rfl
    exact ⟨l1, l2, by simpa [step] using h1, by simpa [step] using h2, by simpa [step] using h3⟩

theorem run_posture (b : Backend) (ops : List Op) :
    ∀ (d : L298N) (tr : List HwCall), d._in1 ≠ d._in2 →
      (∃ l1 l2, pinLevel d._in1 tr = some l1 ∧ pinLevel d._in2 tr = some l2 ∧
        (l1 ≠ l2 ↔ d._running = true)) →
      ∃ l1 l2, pinLevel d._in1 (tr ++ (run b d ops).2) = some l1 ∧
        pinLevel d._in2 (tr ++ (run b d ops).2) = some l2 ∧
        (l1 ≠ l2 ↔ (run b d ops).1._running = true) := by
  induction ops with
  | nil => intro d tr _ hinv; simpa [run] using hinv
  | cons op ops ih =>
    intro d tr hne hinv
    obtain ⟨c1, c2, _, _⟩ := step_config b d op
    have hstep := step_posture b d op tr hne (fun _ => hinv)
    have hne2 : (step b d op).1._in1 ≠ (step b d op).1._in2 := by rw [c1, c2]; exact hne
    have := ih (step b d op).1 (tr ++ (step b d op).2) hne2 (by rw [c1, c2]; exact hstep)
    rw [c1, c2] at this
    simpa only [run, List.append_assoc] using this

/-! ## Invariants after `begin()` -/

/-- C16: enable-line consistency. For a full-mode driver on either backend,
after `begin()` (from any prior state) and any further call sequence, the duty
most recently written to the PWM backend equals `getSpeed()` when `isRunning()`
is true and equals 0 when `isRunning()` is false, whatever `setSpeed` has staged
since. -/
theorem C16_enable_line_consistent (b : Backend) (d : L298N) (ops : List Op)
    (hfull : d._hasEnablePin = true) :
    lastDuty (run b d (Op.begin :: ops)).2 =
      some (if (run b d (Op.begin :: ops)).1.isRunning
        then (run b d (Op.begin :: ops)).1.getSpeed else 0) ∧
    ((run b d (Op.begin :: ops)).1.isRunning = true →
      lastDuty (run b d (Op.begin :: ops)).2 = some (run b d (Op.begin :: ops)).1.getSpeed) ∧
    ((run b d (Op.begin :: ops)).1.isRunning = false →
      lastDuty (run b d (Op.begin :: ops)).2 = some 0) := by
  have hbegin : lastDuty (step b d Op.begin).2 =
      some (if (step b d Op.begin).1._running then (step b d Op.begin).1._speed else 0) := by
    cases b <;>
      simp [step, L298N.begin, L298N.stop, L298N.brake, L298N._updateSpeed, hfull,
        lastDuty_cons, lastDuty]
  have hmain := run_lastDuty b ops (step b d Op.begin).1 (step b d Op.begin).2
    ((step_config b d Op.begin).2.2.2.trans hfull) hbegin
  have hrun : lastDuty (run b d (Op.begin :: ops)).2 =
      some (if (run b d (Op.begin :: ops)).1.isRunning
        then (run b d (Op.begin :: ops)).1.getSpeed else 0) := by
    simpa only [run, L298N.isRunning, L298N.getSpeed] using hmain
  refine ⟨hrun, fun h => ?_, fun h => ?_⟩
  · rw [hrun, h]; rfl
  · rw [hrun, h]; rfl

theorem C16_enable_line_consistent_witness :
    (L298N.withEnable 2 3 4)._hasEnablePin = true ∧
    (run Backend.generic (L298N.withEnable 2 3 4)
      (Op.begin :: [Op.forward 200, Op.coast, Op.setSpeed 50])).1.isRunning = false ∧
    (run Backend.generic (L298N.withEnable 2 3 4)
      (Op.begin :: [Op.forward 200, Op.coast, Op.setSpeed 50])).1.getSpeed = 50 ∧
    lastDuty (run Backend.generic (L298N.withEnable 2 3 4)
      (Op.begin :: [Op.forward 200, Op.coast, Op.setSpeed 50])).2 = some 0 :=
  ⟨by decide, by decide, by decide,
    (C16_enable_line_consistent Backend.generic (L298N.withEnable 2 3 4)
      [Op.forward 200, Op.coast, Op.setSpeed 50] (by decide)).2.2 (by decide)⟩

/-- C17: posture invariant. For a driver whose `_in1` and `_in2` are different
pins (either mode, either backend), after `begin()` and any further call
sequence both pins have been written by `digitalWrite`, and the levels last
written to them differ if and only if `isRunning()` is true. -/
theorem C17_posture_invariant (b : Backend) (d : L298N) (ops : List Op)
    (hne : d._in1 ≠ d._in2) :
    ∃ l1 l2, pinLevel d._in1 (run b d (Op.begin :: ops)).2 = some l1 ∧
      pinLevel d._in2 (run b d (Op.begin :: ops)).2 = some l2 ∧
      (l1 ≠ l2 ↔ (run b d (Op.begin :: ops)).1.isRunning = true) := by
  obtain ⟨c1, c2, _, _⟩ := step_config b d Op.begin
  have hbegin := step_posture b d Op.begin [] hne (fun h => by simp [isPostureCall] at h)
  rw [List.nil_append] at hbegin
  have hne2 : (step b d Op.begin).1._in1 ≠ (step b d Op.begin).1._in2 := by
    rw [c1, c2]; exact hne
  have hmain := run_posture b ops (step b d Op.begin).1 (step b d Op.begin).2 hne2
    (by rw [c1, c2]; exact hbegin)
  rw [c1, c2] at hmain
  simpa only [run, L298N.isRunning] using hmain

theorem C17_posture_invariant_witness :
    (L298N.withEnable 2 3 4)._in1 ≠ (L298N.withEnable 2 3 4)._in2 ∧
    ∃ l1 l2, pinLevel (L298N.withEnable 2 3 4)._in1
        (run Backend.ESP32 (L298N.withEnable 2 3 4)
          (Op.begin :: [Op.backward 120, Op.setSpeed 7])).2 = some l1 ∧
      pinLevel (L298N.withEnable 2 3 4)._in2
        (run Backend.ESP32 (L298N.withEnable 2 3 4)
          (Op.begin :: [Op.backward 120, Op.setSpeed 7])).2 = some l2 ∧
      (l1 ≠ l2 ↔ (run Backend.ESP32 (L298N.withEnable 2 3 4)
          (Op.begin :: [Op.backward 120, Op.setSpeed 7])).1.isRunning = true) :=
  ⟨by decide,
    C17_posture_invariant Backend.ESP32 (L298N.withEnable 2 3 4)
      [Op.backward 120, Op.setSpeed 7] (by decide)⟩

/-! ## The two PWM backends -/

/-- One public call: same resulting state on both builds, and the generic trace
is the reading of the ESP32 trace. -/
theorem step_backend (d : L298N) (op : Op) :
    (step Backend.ESP32 d op).1 = (step Backend.generic d op).1 ∧
    (step Backend.ESP32 d op).2.filterMap (toGenericCall d._en) =
      (step Backend.generic d op).2 ∧
    (step Backend.ESP32 d op).2.length =
      (step Backend.generic d op).2.length +
        (if d._hasEnablePin then 2 * countBegin [op] else 0) := by
  cases op <;> cases hf : d._hasEnablePin <;>
    simp [step, L298N.begin, L298N.stop, L298N.forward, L298N.backward, L298N.brake,
      L298N.coast, L298N.setSpeed, L298N._updateSpeed, hf, toGenericCall, countBegin]
  all_goals (cases hr : d._running <;> simp [toGenericCall])

theorem countBegin_cons (op : Op) (ops : List Op) :
    countBegin (op :: ops) = countBegin [op] + countBegin ops := by
  cases op <;> simp [countBegin, Nat.add_comm]

theorem dirWrites_toGeneric (en : Nat) (tr : List HwCall) :
    dirWrites (tr.filterMap (toGenericCall en)) = dirWrites tr := by
  induction tr with
  | nil => rfl
  | cons c cs ih =>
    cases c with
    | ledcSetup ch freq res =>
      by_cases h : ch = 0 ∧ freq = 5000 ∧ res = 8 <;>
        simp [List.filterMap_cons, toGenericCall, h, dirWrites, ih]
    | ledcAttachPin p ch =>
      by_cases h : p = en ∧ ch = 0 <;>
        simp [List.filterMap_cons, toGenericCall, h, dirWrites, ih]
    | ledcWrite ch duty =>
      by_cases h : ch = 0 <;>
        simp [List.filterMap_cons, toGenericCall, h, dirWrites, ih]
    | pinMode p m => simp [List.filterMap_cons, toGenericCall, dirWrites, ih]
    | digitalWrite p l => simp [List.filterMap_cons, toGenericCall, dirWrites, ih]
    | analogWrite p duty => simp [List.filterMap_cons, toGenericCall, dirWrites, ih]

theorem dutyWrites_toGeneric (en : Nat) (tr : List HwCall) :
    dutyWrites (tr.filterMap (toGenericCall en)) = dutyWrites tr := by
  induction tr with
  | nil => rfl
  | cons c cs ih =>
    cases c with
    | ledcSetup ch freq res =>
      by_cases h : ch = 0 ∧ freq = 5000 ∧ res = 8 <;>
        simp [List.filterMap_cons, toGenericCall, h, dutyWrites, ih]
    | ledcAttachPin p ch =>
      by_cases h : p = en ∧ ch = 0 <;>
        simp [List.filterMap_cons, toGenericCall, h, dutyWrites, ih]
    | ledcWrite ch duty =>
      by_cases h : ch = 0 <;>
        simp [List.filterMap_cons, toGenericCall, h, dutyWrites, ih]
    | pinMode p m => simp [List.filterMap_cons, toGenericCall, dutyWrites, ih]
    | digitalWrite p l => simp [List.filterMap_cons, toGenericCall, dutyWrites, ih]
    | analogWrite p duty => simp [List.filterMap_cons, toGenericCall, dutyWrites, ih]

/-- A call sequence: same final state on both builds, the generic trace is the
reading of the ESP32 trace, and the ESP32 trace is longer by two calls for each
`begin()` of a full-mode driver. -/
theorem run_backend (ops : List Op) :
    ∀ d : L298N,
      (run Backend.ESP32 d ops).1 = (run Backend.generic d ops).1 ∧
      (run Backend.ESP32 d ops).2.filterMap (toGenericCall d._en) =
        (run Backend.generic d ops).2 ∧
      (run Backend.ESP32 d ops).2.length =
        (run Backend.generic d ops).2.length +
          (if d._hasEnablePin then 2 * countBegin ops else 0) ∧
      runStates Backend.ESP32 d ops = runStates Backend.generic d ops := by
  induction ops with
  | nil => intro d; simp [run, runStates, countBegin]
  | cons op ops ih =>
    intro d
    obtain ⟨s1, s2, s3⟩ := step_backend d op
    obtain ⟨_, _, c3, c4⟩ := step_config Backend.generic d op
    obtain ⟨r1, r2, r3, r4⟩ := ih (step Backend.generic d op).1
    rw [c3] at r2
    rw [c4] at r3
    refine ⟨?_, ?_, ?_, ?_⟩
    · simp only [run, s1, r1]
    · simp only [run, List.filterMap_append, s1, s2, r2]
    · simp only [run, List.length_append, s1, s3, r3]
      rw [countBegin_cons op ops]
      split <;> omega
    · simp only [runStates, s1, r4]

/-- C18: backend equivalence. For every initial state and every call sequence,
the ESP32 build and the generic build yield the same driver state after each
call and the same final state, the same digital writes and the same duty values
in the same order; the generic trace is obtained from the ESP32 trace by
dropping `ledcSetup(0, 5000, 8)` and `ledcAttachPin(_en, 0)` and reading each
duty write to channel 0 as `analogWrite(_en, duty)`, every other call staying in
place, and the ESP32 trace is longer by exactly two calls per `begin()` in full
mode and by none in reduced mode. -/
theorem C18_backend_equivalence (d : L298N) (ops : List Op) :
    runStates Backend.ESP32 d ops = runStates Backend.generic d ops ∧
    (run Backend.ESP32 d ops).1 = (run Backend.generic d ops).1 ∧
    dirWrites (run Backend.ESP32 d ops).2 = dirWrites (run Backend.generic d ops).2 ∧
    dutyWrites (run Backend.ESP32 d ops).2 = dutyWrites (run Backend.generic d ops).2 ∧
    (run Backend.ESP32 d ops).2.filterMap (toGenericCall d._en) =
      (run Backend.generic d ops).2 ∧
    (run Backend.ESP32 d ops).2.length =
      (run Backend.generic d ops).2.length +
        (if d._hasEnablePin then 2 * countBegin ops else 0) := by
  obtain ⟨r1, r2, r3, r4⟩ := run_backend ops d
  refine ⟨r4, r1, ?_, ?_, r2, r3⟩
  · rw [← r2, dirWrites_toGeneric]
  · rw [← r2, dutyWrites_toGeneric]

/-! ## Pin locality -/

theorem isLocalCall_config (b : Backend) (d e : L298N) (c : HwCall)
    (h1 : e._in1 = d._in1) (h2 : e._in2 = d._in2) (h3 : e._en = d._en)
    (h4 : e._hasEnablePin = d._hasEnablePin) :
    isLocalCall b e c = isLocalCall b d c := by
  cases c <;> simp [isLocalCall, h1, h2, h3, h4]

/-- Every hardware call of one public call stays within the driver's resources. -/
theorem step_local (b : Backend) (d : L298N) (op : Op) :
    (step b d op).2.all (isLocalCall b d) = true := by
  cases op <;> cases b <;> cases hf : d._hasEnablePin <;>
    simp [step, L298N.begin, L298N.stop, L298N.forward, L298N.backward, L298N.brake,
      L298N.coast, L298N.setSpeed, L298N._updateSpeed, hf, isLocalCall]
  all_goals (cases hr : d._running <;> simp [isLocalCall, hf])

theorem run_local (b : Backend) (ops : List Op) :
    ∀ d : L298N, (run b d ops).2.all (isLocalCall b d) = true := by
  induction ops with
  | nil => intro d; simp [run]
  | cons op ops ih =>
    intro d
    obtain ⟨h1, h2, h3, h4⟩ := step_config b d op
    have hrest := ih (step b d op).1
    have hfun : isLocalCall b (step b d op).1 = isLocalCall b d :=
      funext fun c => isLocalCall_config b d (step b d op).1 c h1 h2 h3 h4
    rw [hfun] at hrest
    simp only [run, List.all_append, step_local, hrest, Bool.and_self]

/-- C19: pin locality. For every backend, driver state and call sequence, every
call of the trace stays within the driver's resources: each digital write goes
to `_in1` or `_in2`, each pin configuration to `_in1`, `_in2` or (full mode only)
`_en`, each `analogWrite` occurs on the generic build in full mode and goes to
`_en`, and the only other pin named anywhere is `_en` in `ledcAttachPin` on the
ESP32 build. -/
theorem C19_pin_locality (b : Backend) (d : L298N) (ops : List Op) :
    (run b d ops).2.all (isLocalCall b d) = true ∧
    (∀ (p : Nat) (l : Level), isLocalCall b d (HwCall.digitalWrite p l) = true ↔
      (p = d._in1 ∨ p = d._in2)) ∧
    (∀ (p : Nat) (m : PinModeArg), isLocalCall b d (HwCall.pinMode p m) = true ↔
      (p = d._in1 ∨ p = d._in2 ∨ (d._hasEnablePin = true ∧ p = d._en))) ∧
    (∀ (p duty : Nat), isLocalCall b d (HwCall.analogWrite p duty) = true ↔
      (b = Backend.generic ∧ d._hasEnablePin = true ∧ p = d._en)) := by
  refine ⟨run_local b ops d, ?_, ?_, ?_⟩
  · intro p l; simp [isLocalCall]
  · intro p m; simp [isLocalCall]
  · intro p duty; simp [isLocalCall]
